import Mathlib

/-!
# Verification of the Mollusk instruction-execution harness

This file gives a shallow embedding, in Lean 4, of the Mollusk test harness
for Solana programs (`src/harness/src/lib.rs` and `src/harness/src/program.rs`)
and proves properties of its instruction-execution pipeline.

Modelling conventions:
* Program identities (`Pubkey`) are modelled as their base58 strings; the
  harness never computes on key bytes in the code under verification.
* Byte buffers (ELF images, instruction data, account data) are `List Nat`.
* The SVM virtual machine (`InvokeContext::process_instruction` from Agave's
  `solana-program-runtime`) is an external collaborator; it is modelled as an
  opaque deterministic function `VM` from the data the harness hands to it to
  the data the harness reads back (its result code, the post-execution
  contents of the transaction account cells, consumed compute units, timing,
  and updated cache statistics).
* Rust `u16` casts (`as u16`) are modelled by reduction modulo 2 ^ 16.
* Rust panics (every `.unwrap()` in the source) are modelled explicitly:
  `Mollusk.process_instruction` returns `none` on panic, and
  `ProgramCache.add_program` returns a `panicked : Bool` flag.  A panic
  raised while the cache's `RwLock` write guard is held poisons the lock
  (field `poisoned`); any later `.write().unwrap()` or `.read().unwrap()`
  on a poisoned lock panics.
-/

namespace MolluskSpec

/-- A program identity / public key, modelled by its base58 string. -/
abbrev Pubkey := String

/-- `solana_sdk::system_program::id()`. -/
def system_program_id : Pubkey := "11111111111111111111111111111111"

/-- `solana_sdk::bpf_loader::id()`. -/
def bpf_loader_id : Pubkey := "BPFLoader2111111111111111111111111111111111"

/-- `solana_sdk::bpf_loader_upgradeable::id()`. -/
def bpf_loader_upgradeable_id : Pubkey := "BPFLoaderUpgradeab1e11111111111111111111111"

/-- `solana_sdk::native_loader::id()`. -/
def native_loader_id : Pubkey := "NativeLoader1111111111111111111111111111111"

/-- `solana_sdk::account::Account` / `AccountSharedData`: one caller-supplied
unit of mutable state (balance, data bytes, owner, executable flag, rent
epoch). -/
structure Account where
  lamports : Nat
  data : List Nat
  owner : Pubkey
  executable : Bool
  rent_epoch : Nat
deriving DecidableEq

/-- `solana_sdk::instruction::AccountMeta`: one entry of an instruction's
ordered account list (identity plus privilege flags). -/
structure AccountMeta where
  pubkey : Pubkey
  is_signer : Bool
  is_writable : Bool
deriving DecidableEq

/-- `solana_sdk::instruction::Instruction`: the immutable description of the
call — target program, instruction data and account metas. -/
structure Instruction where
  program_id : Pubkey
  accounts : List AccountMeta
  data : List Nat
deriving DecidableEq

/-- `solana_sdk::transaction_context::InstructionAccount` as built by
`Mollusk::process_instruction`.  The three index fields are `u16` in the
source; their values here are the natural numbers obtained after the
`as u16` truncation. -/
structure InstructionAccount where
  index_in_callee : Nat
  index_in_caller : Nat
  index_in_transaction : Nat
  is_signer : Bool
  is_writable : Bool
deriving DecidableEq

/-- `solana_sdk::instruction::InstructionError` (external SDK type): the
typed execution failures the VM can report back to the harness.  The
variants named by the spec are given constructors; the remaining SDK
variants are collapsed into `other`. -/
inductive InstructionError where
  | custom (code : Nat)
  | privilegeViolation
  | computeBudgetExceeded
  | accountDataSizeChanged
  | missingAccount
  | other (tag : Nat)
deriving DecidableEq

/-- Modelled from the spec: the repository's `result.rs` (declared by
`pub mod result` but not present under `src/`) defines the program result as
"success-or-failure-with-code-and-optional-VM-error", and conversion from the
VM's return is total: "This return is never thrown as an unrecoverable fault
by the processor — it is captured as data." -/
inductive ProgramResult where
  | success
  | failure (e : InstructionError)
deriving DecidableEq

/-- Modelled from the spec: the `From` conversion applied by
`invoke_result.into()` in `process_instruction` (the impl lives in the
missing `result.rs`); it maps the VM's `Ok` to success and any typed error
to a captured failure. -/
def programResultFrom : Except InstructionError Unit → ProgramResult
  | Except.ok _ => ProgramResult.success
  | Except.error e => ProgramResult.failure e

/-- Modelled from the spec: `result::InstructionResult` (struct literal
visible in `lib.rs`; the declaration lives in the missing `result.rs`):
consumed compute units, execution time, program result, and the ordered
resulting accounts. -/
structure InstructionResult where
  compute_units_consumed : Nat
  execution_time : Nat
  program_result : ProgramResult
  resulting_accounts : List (Pubkey × Account)
deriving DecidableEq

/-- `solana_compute_budget::ComputeBudget`, restricted to the fields the
harness code reads by name (`TransactionContext::new` receives them); the
whole budget is also handed to the VM opaquely. -/
structure ComputeBudget where
  max_instruction_stack_depth : Nat
  max_instruction_trace_length : Nat
deriving DecidableEq

/-- `solana_sdk::feature_set::FeatureSet`, opaque to the harness: an
identifier for the set of enabled features. -/
abbrev FeatureSet := Nat

/-- `mollusk::sysvar::Sysvars`, opaque to the claims under verification. -/
abbrev Sysvars := Nat

/-- `solana_sdk::fee::FeeStructure`, restricted to the only field the
harness reads (`lamports_per_signature`). -/
structure FeeStructure where
  lamports_per_signature : Nat
deriving DecidableEq

/-- A program cache entry
(`solana_program_runtime::loaded_programs::ProgramCacheEntry`), modelled as
the tagged variant the spec prescribes: a natively-implemented builtin
(`ProgramCacheEntry::new_builtin`) or a verified bytecode image owned by a
loader (`ProgramCacheEntry::new`). -/
inductive CacheEntry where
  | builtin (nameLen : Nat) (entrypoint : Nat)
  | bytecode (loader : Pubkey) (image : List Nat)
deriving DecidableEq

/-- `ProgramCacheForTxBatch::replenish`: insert-or-replace keyed by program
identity (last-write-wins), modelled on an association list. -/
def replenish : List (Pubkey × CacheEntry) → Pubkey → CacheEntry → List (Pubkey × CacheEntry)
  | [], k, e => [(k, e)]
  | (k0, e0) :: rest, k, e =>
    if k0 = k then (k, e) :: rest else (k0, e0) :: replenish rest k e

/-- Cache lookup by program identity (`ProgramCacheForTxBatch::find`). -/
def lookupEntry : List (Pubkey × CacheEntry) → Pubkey → Option CacheEntry
  | [], _ => none
  | (k0, e0) :: rest, k => if k0 = k then some e0 else lookupEntry rest k

/-- `mollusk::program::ProgramCache`: the `RwLock<ProgramCacheForTxBatch>`.
`entries` is the identity-keyed entry map, `metrics` stands for the cache
statistics the VM may mutate during invocation, and `poisoned` records
whether a panic was raised while the lock was held (Rust lock poisoning). -/
structure ProgramCache where
  entries : List (Pubkey × CacheEntry)
  metrics : Nat
  poisoned : Bool
deriving DecidableEq

/-- The outcome of bytecode verification
(`ProgramCacheEntry::new` from Agave, an external collaborator): `none` when
the ELF is rejected (malformed, disallowed opcodes, size limits), otherwise
the verified executable image.  It is a parameter of the embedding; the
environment built by `create_program_runtime_environment_v1` from the
compute budget and feature set is part of the function. -/
abbrev ElfVerify := List Nat → Option (List Nat)

/-- `ProgramCache::add_program` from `src/harness/src/program.rs`.

Source shape: `self.cache.write().unwrap().replenish(*program_id,
Arc::new(ProgramCacheEntry::new(loader_key, env, 0, 0, elf, elf.len(),
&mut metrics).unwrap()))`.  The lock's write guard (the receiver) is
acquired first; the entry argument is evaluated while the guard is held, so
a verification failure panics with the guard alive and poisons the lock
without touching the entry map.  Returns the post-call cache state and a
flag recording whether the call panicked. -/
def ProgramCache.add_program (verify : ElfVerify) (c : ProgramCache)
    (program_id : Pubkey) (loader_key : Pubkey) (elf : List Nat) :
    ProgramCache × Bool :=
  if c.poisoned then
    (c, true)
  else
    match verify elf with
    | some image =>
      ({ c with entries := replenish c.entries program_id (CacheEntry.bytecode loader_key image) },
        false)
    | none => ({ c with poisoned := true }, true)

/-- `mollusk::Mollusk`: the harness configuration (the `Mollusk` struct of
`src/harness/src/lib.rs`). -/
structure Mollusk where
  compute_budget : ComputeBudget
  feature_set : FeatureSet
  fee_structure : FeeStructure
  program_account : Account
  program_cache : ProgramCache
  program_id : Pubkey
  sysvars : Sysvars

/-- `const PROGRAM_ACCOUNTS_LEN: usize = 1`. -/
def PROGRAM_ACCOUNTS_LEN : Nat := 1

/-- `const PROGRAM_INDICES: &[u16] = &[0]`. -/
def PROGRAM_INDICES : List Nat := [0]

/-- The instruction-account list built by `process_instruction`:
`instruction.accounts.iter().enumerate().map(|(i, meta)| InstructionAccount
{ index_in_callee: i as u16, index_in_caller: i as u16,
index_in_transaction: (i + PROGRAM_ACCOUNTS_LEN) as u16, is_signer:
meta.is_signer, is_writable: meta.is_writable })`, fused with the running
counter `i` made explicit; `as u16` is `% 2 ^ 16`. -/
def instructionAccountsFrom : Nat → List AccountMeta → List InstructionAccount
  | _, [] => []
  | i, meta :: rest =>
    { index_in_callee := i % 65536,
      index_in_caller := i % 65536,
      index_in_transaction := (i + PROGRAM_ACCOUNTS_LEN) % 65536,
      is_signer := meta.is_signer,
      is_writable := meta.is_writable } :: instructionAccountsFrom (i + 1) rest

/-- The linear transaction account table built by `process_instruction`:
`[(self.program_id, self.program_account.clone())].iter().chain(accounts)
.cloned().collect()` — the harness-configured program account prepended to
the caller's accounts. -/
def transactionAccounts (m : Mollusk) (accounts : List (Pubkey × Account)) :
    List (Pubkey × Account) :=
  (m.program_id, m.program_account) :: accounts

/-- Everything the harness hands to the VM for one invocation: the cache's
entry map (read through the acquired lock), the environment configuration
(`EnvironmentConfig::new` receives the feature set, the fee structure's
lamports-per-signature and the sysvar cache; the compute budget and the
transaction context built from `transactionAccounts` are passed alongside),
and the arguments of `InvokeContext::process_instruction` (instruction
data, instruction accounts, `PROGRAM_INDICES`). -/
structure VMInput where
  entries : List (Pubkey × CacheEntry)
  compute_budget : ComputeBudget
  feature_set : FeatureSet
  lamports_per_signature : Nat
  sysvars : Sysvars
  instr_data : List Nat
  instruction_accounts : List InstructionAccount
  program_indices : List Nat
  transaction_accounts : List (Pubkey × Account)

/-- Everything the harness reads back from one VM invocation: the typed
result of `InvokeContext::process_instruction`, the post-execution contents
of the transaction context's account cells (the VM mutates them in place,
so their count is that of the input table — `VM.PreservesLen`), consumed
compute units, `timings.details.execute_us`, and the updated cache
statistics (the write lock lets the VM mutate cache metrics). -/
structure VMOutput where
  invoke_result : Except InstructionError Unit
  transaction_accounts : List Account
  compute_units_consumed : Nat
  execute_us : Nat
  metrics : Nat

/-- The SVM virtual machine, an external collaborator treated as an opaque
deterministic executor (spec section 1). -/
abbrev VM := VMInput → VMOutput

/-- Interface fact about the real VM: the transaction context's account
cells are mutated in place, never added or removed, so the post-execution
account list has the length of the input table. -/
def VM.PreservesLen (vm : VM) : Prop :=
  ∀ inp : VMInput, (vm inp).transaction_accounts.length = inp.transaction_accounts.length

/-- The `VMInput` that `Mollusk::process_instruction` assembles for the VM
from the harness configuration, the instruction and the caller accounts. -/
def mkVMInput (m : Mollusk) (instruction : Instruction)
    (accounts : List (Pubkey × Account)) : VMInput :=
  { entries := m.program_cache.entries,
    compute_budget := m.compute_budget,
    feature_set := m.feature_set,
    lamports_per_signature := m.fee_structure.lamports_per_signature,
    sysvars := m.sysvars,
    instr_data := instruction.data,
    instruction_accounts := instructionAccountsFrom 0 instruction.accounts,
    program_indices := PROGRAM_INDICES,
    transaction_accounts := transactionAccounts m accounts }

/-- The resulting-account extraction of `process_instruction`:
`transaction_context.deconstruct_without_keys().unwrap().into_iter()
.skip(PROGRAM_ACCOUNTS_LEN).zip(instruction.accounts.iter())
.map(|(account, meta)| (meta.pubkey, account)).collect()`. -/
def resultingAccounts (post : List Account) (metas : List AccountMeta) :
    List (Pubkey × Account) :=
  ((post.drop PROGRAM_ACCOUNTS_LEN).zip metas).map (fun p => (p.2.pubkey, p.1))

/-- `Mollusk::process_instruction` from `src/harness/src/lib.rs`.

Pipeline, as in the source: build the instruction accounts and the
transaction account table; `self.program_cache.cache().write().unwrap()` —
panics (`none`) if the lock is poisoned; invoke the VM
(`InvokeContext::process_instruction`); deconstruct the transaction context
(`deconstruct_without_keys().unwrap()` succeeds at top level: no borrows
are outstanding), skip the prepended program account, zip against the
instruction's account metas, pair each account with the meta's pubkey; and
assemble the `InstructionResult`.  Returns the result together with the
post-call cache state (the VM may have updated cache metrics). -/
def Mollusk.process_instruction (vm : VM) (m : Mollusk)
    (instruction : Instruction) (accounts : List (Pubkey × Account)) :
    Option (InstructionResult × ProgramCache) :=
  if m.program_cache.poisoned then
    none
  else
    let out := vm (mkVMInput m instruction accounts)
    some
      ({ compute_units_consumed := out.compute_units_consumed,
         execution_time := out.execute_us,
         program_result := programResultFrom out.invoke_result,
         resulting_accounts := resultingAccounts out.transaction_accounts instruction.accounts },
        { m.program_cache with metrics := out.metrics })

/-- A builtin platform program (`mollusk::program::Builtin`): identity,
diagnostic name and native entrypoint.  Entrypoints are modelled by opaque
identifiers; both BPF loader builtins share
`solana_bpf_loader_program::Entrypoint::vm`, hence the same identifier. -/
structure Builtin where
  program_id : Pubkey
  name : String
  entrypoint : Nat

/-- `static BUILTINS: &[Builtin]` from `src/harness/src/program.rs`: the
system program, the BPF loader, and the BPF loader upgradeable, in source
order. -/
def BUILTINS : List Builtin :=
  [ { program_id := system_program_id,
      name := "system_program",
      entrypoint := 0 },
    { program_id := bpf_loader_id,
      name := "solana_bpf_loader_program",
      entrypoint := 1 },
    { program_id := bpf_loader_upgradeable_id,
      name := "solana_bpf_loader_upgradeable_program",
      entrypoint := 1 } ]

/-- `Rent::default().minimum_balance(data_len)`:
`((ACCOUNT_STORAGE_OVERHEAD + data_len) * lamports_per_byte_year) as f64 *
exemption_threshold` with the default constants 128, 3480 and 2.0; the
multiplication by 2.0 is exact for every value occurring here, so the `f64`
round trip is the integer doubling. -/
def rent_minimum_balance (data_len : Nat) : Nat :=
  (128 + data_len) * 3480 * 2

/-- `builtin_program_account` from `src/harness/src/program.rs`: a
native-loader-owned executable account whose data is the program's name. -/
def builtin_program_account (program_id : Pubkey) (name : String) :
    Pubkey × Account :=
  let data := name.toList.map Char.toNat
  let lamports := rent_minimum_balance data.length
  (program_id,
    { lamports := lamports,
      data := data,
      owner := native_loader_id,
      executable := true,
      rent_epoch := 0 })

/-- `system_program()` from `src/harness/src/program.rs`:
`builtin_program_account(&BUILTINS[0].program_id, BUILTINS[0].name)`. -/
def system_program : Pubkey × Account :=
  builtin_program_account (BUILTINS.get ⟨0, by decide⟩).program_id
    (BUILTINS.get ⟨0, by decide⟩).name

/-- `bpf_loader_upgradeable_program()` from `src/harness/src/program.rs`:
`builtin_program_account(&BUILTINS[1].program_id, BUILTINS[1].name)` —
note the source indexes `BUILTINS[1]`. -/
def bpf_loader_upgradeable_program : Pubkey × Account :=
  builtin_program_account (BUILTINS.get ⟨1, by decide⟩).program_id
    (BUILTINS.get ⟨1, by decide⟩).name

/-- The caller's account slice threaded as state.  In the source the slice
is an immutable borrow (`accounts: &[(Pubkey, AccountSharedData)]`) and the
pipeline clones it into the transaction table (`.cloned().collect()`), so
the caller-owned buffer passes through the call unchanged while all VM
mutation lands on the copies inside the transaction context. -/
def Mollusk.process_instruction_tracked (vm : VM) (m : Mollusk)
    (instruction : Instruction) (store : List (Pubkey × Account)) :
    Option (InstructionResult × ProgramCache) × List (Pubkey × Account) :=
  (Mollusk.process_instruction vm m instruction store, store)

/-! ## Helper lemmas -/

theorem instructionAccountsFrom_length (i : Nat) (ms : List AccountMeta) :
    (instructionAccountsFrom i ms).length = ms.length := by
  induction ms generalizing i with
  | nil => rfl
  | cons m rest ih => simp [instructionAccountsFrom, ih]

theorem instructionAccountsFrom_getElem? (i j : Nat) (ms : List AccountMeta) :
    (instructionAccountsFrom i ms)[j]? =
      (ms[j]?).map (fun meta =>
        { index_in_callee := (i + j) % 65536,
          index_in_caller := (i + j) % 65536,
          index_in_transaction := (i + j + PROGRAM_ACCOUNTS_LEN) % 65536,
          is_signer := meta.is_signer,
          is_writable := meta.is_writable }) := by
  induction ms generalizing i j with
  | nil => simp [instructionAccountsFrom]
  | cons m rest ih =>
    cases j with
    | zero => simp [instructionAccountsFrom]
    | succ j =>
      have h : i + 1 + j = i + (j + 1) := by omega
      simp only [instructionAccountsFrom, List.getElem?_cons_succ, ih (i + 1) j, h]

theorem resultingAccounts_length (post : List Account) (metas : List AccountMeta) :
    (resultingAccounts post metas).length =
      min (post.length - PROGRAM_ACCOUNTS_LEN) metas.length := by
  simp [resultingAccounts]

theorem resultingAccounts_getElem? (post : List Account) (metas : List AccountMeta) (i : Nat) :
    (resultingAccounts post metas)[i]? =
      match post[PROGRAM_ACCOUNTS_LEN + i]?, metas[i]? with
      | some a, some meta => some (meta.pubkey, a)
      | _, _ => none := by
  rw [resultingAccounts, List.getElem?_map, List.zip_eq_zipWith, List.getElem?_zipWith,
    List.getElem?_drop]
  cases post[PROGRAM_ACCOUNTS_LEN + i]? <;> cases metas[i]? <;> rfl

theorem resultingAccounts_fst_getElem? (post : List Account) (metas : List AccountMeta)
    (i : Nat) (hpost : post.length = metas.length + PROGRAM_ACCOUNTS_LEN) :
    ((resultingAccounts post metas)[i]?).map Prod.fst = (metas[i]?).map AccountMeta.pubkey := by
  rw [resultingAccounts_getElem?]
  rw [show PROGRAM_ACCOUNTS_LEN = 1 from rfl] at hpost ⊢
  by_cases h : i < metas.length
  · rw [List.getElem?_eq_getElem (show 1 + i < post.length by omega),
      List.getElem?_eq_getElem h]
    rfl
  · rw [List.getElem?_eq_none (show metas.length ≤ i by omega)]
    cases hpp : post[1 + i]? <;> simp

theorem process_instruction_poisoned (vm : VM) (m : Mollusk)
    (instruction : Instruction) (accounts : List (Pubkey × Account))
    (h : m.program_cache.poisoned = true) :
    Mollusk.process_instruction vm m instruction accounts = none := by
  simp [Mollusk.process_instruction, h]

theorem process_instruction_eq_some (vm : VM) (m : Mollusk)
    (instruction : Instruction) (accounts : List (Pubkey × Account))
    (h : m.program_cache.poisoned = false) :
    Mollusk.process_instruction vm m instruction accounts =
      some
        ({ compute_units_consumed :=
             (vm (mkVMInput m instruction accounts)).compute_units_consumed,
           execution_time := (vm (mkVMInput m instruction accounts)).execute_us,
           program_result :=
             programResultFrom (vm (mkVMInput m instruction accounts)).invoke_result,
           resulting_accounts :=
             resultingAccounts (vm (mkVMInput m instruction accounts)).transaction_accounts
               instruction.accounts },
          { m.program_cache with
              metrics := (vm (mkVMInput m instruction accounts)).metrics }) := by
  simp [Mollusk.process_instruction, h]

theorem lookupEntry_replenish_self (es : List (Pubkey × CacheEntry)) (k : Pubkey)
    (e : CacheEntry) : lookupEntry (replenish es k e) k = some e := by
  induction es with
  | nil => simp [replenish, lookupEntry]
  | cons p rest ih =>
    obtain ⟨k0, e0⟩ := p
    by_cases h : k0 = k
    · simp [replenish, lookupEntry, h]
    · simp [replenish, lookupEntry, h, ih]

/-! ## Concrete fixtures used by witnesses and counterexamples -/

/-- A fixture program identity. -/
def fixProgramId : Pubkey := "Fixture111111111111111111111111111111111111"

/-- A fixture program account for the harness configuration. -/
def fixProgramAccount : Account :=
  { lamports := 1, data := [], owner := native_loader_id, executable := true,
    rent_epoch := 0 }

/-- A fixture caller account. -/
def accountA : Account :=
  { lamports := 100, data := [1, 2], owner := system_program_id, executable := false,
    rent_epoch := 0 }

/-- A fixture cache holding one entry for the fixture program. -/
def fixCache : ProgramCache :=
  { entries := [(fixProgramId, CacheEntry.builtin 7 0)], metrics := 0, poisoned := false }

/-- A fixture harness configuration. -/
def fixMollusk : Mollusk :=
  { compute_budget := { max_instruction_stack_depth := 5, max_instruction_trace_length := 64 },
    feature_set := 0,
    fee_structure := { lamports_per_signature := 5000 },
    program_account := fixProgramAccount,
    program_cache := fixCache,
    program_id := fixProgramId,
    sysvars := 0 }

/-- A fixture account meta. -/
def fixMeta : AccountMeta :=
  { pubkey := "CallerKey1111111111111111111111111111111111",
    is_signer := true, is_writable := true }

/-- A fixture instruction with one account meta. -/
def fixInstr : Instruction :=
  { program_id := fixProgramId, accounts := [fixMeta], data := [7] }

/-- The fixture caller account list matching `fixInstr`. -/
def fixAccounts : List (Pubkey × Account) :=
  [(fixMeta.pubkey, accountA)]

/-- An interface-conforming VM used by witnesses: succeeds, leaves every
account cell untouched, consumes ten units, and bumps cache metrics. -/
def idVm : VM := fun inp =>
  { invoke_result := Except.ok (),
    transaction_accounts := inp.transaction_accounts.map Prod.snd,
    compute_units_consumed := 10,
    execute_us := 3,
    metrics := inp.entries.length }

/-- An interface-conforming VM that reports a typed execution failure. -/
def failVm : VM := fun inp =>
  { invoke_result := Except.error (InstructionError.custom 42),
    transaction_accounts := inp.transaction_accounts.map Prod.snd,
    compute_units_consumed := 7,
    execute_us := 2,
    metrics := inp.entries.length }

theorem idVm_preservesLen : VM.PreservesLen idVm := by
  intro inp
  simp [idVm]

/-- The result `process_instruction` computes on the fixtures with `idVm`. -/
def fixResult : InstructionResult :=
  { compute_units_consumed := 10, execution_time := 3,
    program_result := ProgramResult.success,
    resulting_accounts := [(fixMeta.pubkey, accountA)] }

/-- The cache state after the fixture call: metrics updated by `idVm`. -/
def fixCacheAfter : ProgramCache :=
  { entries := fixCache.entries, metrics := 1, poisoned := false }

/-- A fixture instruction whose account-meta list is empty. -/
def cexInstr1 : Instruction :=
  { program_id := fixProgramId, accounts := [], data := [0] }

/-- A fixture program identity used by the cache claims. -/
def cexX : Pubkey := "ProgramX11111111111111111111111111111111111"

/-- The bytecode entry registered for `cexX` before the failed add. -/
def cexOldEntry : CacheEntry := CacheEntry.bytecode bpf_loader_id [1, 2, 3]

/-- A fixture cache holding a prior entry for `cexX`. -/
def cexCacheX : ProgramCache :=
  { entries := [(cexX, cexOldEntry)], metrics := 0, poisoned := false }

/-- A verifier that rejects every ELF (truncated/corrupted bytecode). -/
def failVerify : ElfVerify := fun _ => none

/-- A verifier that accepts every ELF, with the image being the ELF bytes. -/
def okVerify : ElfVerify := fun elf => some elf

/-! ## Claims -/

/-- C4 (amended): for every instruction and zero-based position i with
i + 1 < 2 ^ 16 (so that the source's `as u16` casts do not wrap), the
instruction-account entry constructed for the meta at position i has
`index_in_callee = i`, `index_in_caller = i`, `index_in_transaction = i + 1`,
and `is_signer` / `is_writable` copied verbatim from the meta, with no
derivation or validation applied.  Without that bound the u16 index fields
wrap modulo 2 ^ 16 (see the counterexample). -/
theorem c4_theorem (ms : List AccountMeta) (i : Nat) (meta : AccountMeta)
    (h1 : ms[i]? = some meta) (h2 : i + 1 < 65536) :
    (instructionAccountsFrom 0 ms)[i]? =
      some { index_in_callee := i, index_in_caller := i,
             index_in_transaction := i + 1,
             is_signer := meta.is_signer, is_writable := meta.is_writable } := by
  rw [instructionAccountsFrom_getElem?, h1,
    show PROGRAM_ACCOUNTS_LEN = 1 from rfl]
  simp only [Option.map_some', Option.some.injEq, InstructionAccount.mk.injEq,
    and_true, true_and]
  omega

/-- C4 (counterexample): at position 65535 of an instruction with 65536
account metas the constructed entry has `index_in_transaction = 0` (the
`(i + 1) as u16` cast wraps), not 65536 as the claim's
`index_in_transaction = i + 1` requires at every position. -/
theorem c4_counterexample :
    ¬ ((instructionAccountsFrom 0 (List.replicate 65536 fixMeta))[65535]? =
      some { index_in_callee := 65535, index_in_caller := 65535,
             index_in_transaction := 65536,
             is_signer := fixMeta.is_signer, is_writable := fixMeta.is_writable }) := by
  rw [instructionAccountsFrom_getElem?, List.getElem?_replicate]
  simp only [Option.map_some', Option.some.injEq, InstructionAccount.mk.injEq,
    and_true, true_and, if_pos (show (65535 : Nat) < 65536 by omega)]
  omega

/-- C4 (witness): the amended theorem applied at position 0 of the fixture
instruction. -/
theorem c4_witness :
    (instructionAccountsFrom 0 [fixMeta])[0]? =
      some { index_in_callee := 0, index_in_caller := 0, index_in_transaction := 1,
             is_signer := fixMeta.is_signer, is_writable := fixMeta.is_writable } :=
  c4_theorem [fixMeta] 0 fixMeta rfl (by omega)

/-- C5 (confirmed): for every input, the linear account table handed to the
VM has the harness-configured program account (not one taken from the
caller list) at index 0 and the caller's accounts, order-preserving, at
indices 1..N. -/
theorem c5_theorem (m : Mollusk) (instruction : Instruction)
    (accounts : List (Pubkey × Account)) :
    (mkVMInput m instruction accounts).transaction_accounts.length =
      accounts.length + 1 ∧
    (mkVMInput m instruction accounts).transaction_accounts[0]? =
      some (m.program_id, m.program_account) ∧
    ∀ i : Nat,
      (mkVMInput m instruction accounts).transaction_accounts[i + 1]? =
        accounts[i]? := by
  refine ⟨?_, ?_, fun i => ?_⟩ <;> simp [mkVMInput, transactionAccounts]

/-- C2 (confirmed): whenever the VM reports a typed execution failure, the
processor returns normally (no panic: the call yields `some` result) and the
failure is captured as the `program_result` field of the returned
`InstructionResult`. -/
theorem c2_theorem (vm : VM) (m : Mollusk) (instruction : Instruction)
    (accounts : List (Pubkey × Account)) (e : InstructionError)
    (hpoison : m.program_cache.poisoned = false)
    (hvm : (vm (mkVMInput m instruction accounts)).invoke_result = Except.error e) :
    (Mollusk.process_instruction vm m instruction accounts).map
      (fun p => p.1.program_result) = some (ProgramResult.failure e) := by
  simp [Mollusk.process_instruction, hpoison, hvm, programResultFrom]

/-- C2 (witness): the fixture call through the failing VM returns normally
with the custom error captured. -/
theorem c2_witness :
    (Mollusk.process_instruction failVm fixMollusk fixInstr fixAccounts).map
      (fun p => p.1.program_result) =
      some (ProgramResult.failure (InstructionError.custom 42)) :=
  c2_theorem failVm fixMollusk fixInstr fixAccounts (InstructionError.custom 42) rfl rfl

/-- C10 (code bug): `bpf_loader_upgradeable_program` is documented (and
claimed) to return the identity and account of the BPF Loader Upgradeable
builtin, but it indexes `BUILTINS[1]` — the plain BPF loader — while the
builtin registered under `bpf_loader_upgradeable::id()` sits at
`BUILTINS[2]`. -/
theorem c10_theorem :
    bpf_loader_upgradeable_program =
      builtin_program_account bpf_loader_id "solana_bpf_loader_program" ∧
    bpf_loader_upgradeable_program.1 = bpf_loader_id ∧
    bpf_loader_id ≠ bpf_loader_upgradeable_id ∧
    (BUILTINS.get ⟨2, by decide⟩).program_id = bpf_loader_upgradeable_id :=
  ⟨rfl, rfl, by decide, rfl⟩

/-- C1 (amended): provided the instruction's account-meta list is aligned
with the caller list — equal length, and the meta at each position names the
identity of the caller account at that position — `resulting_accounts` has
the same length as the caller-supplied accounts list and lists the same
identities in the same order, with the prepended program account excluded.
Without that alignment the zip against the metas truncates the sequence and
substitutes the metas' identities (see the counterexample and C9). -/
theorem c1_theorem (vm : VM) (m : Mollusk) (instruction : Instruction)
    (accounts : List (Pubkey × Account)) (r : InstructionResult) (st : ProgramCache)
    (hvm : VM.PreservesLen vm)
    (hlen : instruction.accounts.length = accounts.length)
    (hids : ∀ i : Nat,
      (instruction.accounts[i]?).map AccountMeta.pubkey = (accounts[i]?).map Prod.fst)
    (hp : Mollusk.process_instruction vm m instruction accounts = some (r, st)) :
    r.resulting_accounts.length = accounts.length ∧
    ∀ i : Nat,
      (r.resulting_accounts[i]?).map Prod.fst = (accounts[i]?).map Prod.fst := by
  cases hpois : m.program_cache.poisoned with
  | true =>
    rw [process_instruction_poisoned vm m instruction accounts hpois] at hp
    cases hp
  | false =>
    rw [process_instruction_eq_some vm m instruction accounts hpois] at hp
    simp only [Option.some.injEq, Prod.mk.injEq] at hp
    obtain ⟨hr, hst⟩ := hp
    subst hr
    dsimp only
    have hlen2 :
        (vm (mkVMInput m instruction accounts)).transaction_accounts.length =
          accounts.length + 1 := by
      rw [hvm]
      simp [mkVMInput, transactionAccounts]
    constructor
    · rw [resultingAccounts_length, hlen2, hlen,
        show PROGRAM_ACCOUNTS_LEN = 1 from rfl]
      omega
    · intro i
      rw [resultingAccounts_fst_getElem? _ _ i
        (by rw [hlen2, hlen, show PROGRAM_ACCOUNTS_LEN = 1 from rfl])]
      exact hids i

/-- C1 (counterexample): an instruction whose account-meta list is empty,
processed with one caller account, yields an empty `resulting_accounts`,
so the lengths differ. -/
theorem c1_counterexample :
    ¬ ((Mollusk.process_instruction idVm fixMollusk cexInstr1 fixAccounts).map
        (fun p => p.1.resulting_accounts.length) = some fixAccounts.length) := by
  decide

/-- C1 (witness): the amended theorem applied to the aligned fixture call. -/
theorem c1_witness :
    fixResult.resulting_accounts.length = fixAccounts.length ∧
    (fixResult.resulting_accounts[0]?).map Prod.fst = (fixAccounts[0]?).map Prod.fst :=
  ⟨(c1_theorem idVm fixMollusk fixInstr fixAccounts fixResult fixCacheAfter
      idVm_preservesLen rfl
      (by intro i; rcases i with _ | n <;> simp [fixInstr, fixAccounts, fixMeta])
      (by decide)).1,
    (c1_theorem idVm fixMollusk fixInstr fixAccounts fixResult fixCacheAfter
      idVm_preservesLen rfl
      (by intro i; rcases i with _ | n <;> simp [fixInstr, fixAccounts, fixMeta])
      (by decide)).2 0⟩

/-- C9 (confirmed): `resulting_accounts` has length equal to the minimum of
the caller accounts list length and the instruction's account-meta list
length, and the identity paired with each returned account is taken from
the instruction's account meta at that position, not from the caller
accounts list. -/
theorem c9_theorem (vm : VM) (m : Mollusk) (instruction : Instruction)
    (accounts : List (Pubkey × Account)) (r : InstructionResult) (st : ProgramCache)
    (hvm : VM.PreservesLen vm)
    (hp : Mollusk.process_instruction vm m instruction accounts = some (r, st)) :
    r.resulting_accounts.length = min accounts.length instruction.accounts.length ∧
    ∀ i : Nat, i < r.resulting_accounts.length →
      (r.resulting_accounts[i]?).map Prod.fst =
        (instruction.accounts[i]?).map AccountMeta.pubkey := by
  cases hpois : m.program_cache.poisoned with
  | true =>
    rw [process_instruction_poisoned vm m instruction accounts hpois] at hp
    cases hp
  | false =>
    rw [process_instruction_eq_some vm m instruction accounts hpois] at hp
    simp only [Option.some.injEq, Prod.mk.injEq] at hp
    obtain ⟨hr, hst⟩ := hp
    subst hr
    dsimp only
    have hlen2 :
        (vm (mkVMInput m instruction accounts)).transaction_accounts.length =
          accounts.length + 1 := by
      rw [hvm]
      simp [mkVMInput, transactionAccounts]
    have hL : (resultingAccounts
        (vm (mkVMInput m instruction accounts)).transaction_accounts
        instruction.accounts).length =
        min accounts.length instruction.accounts.length := by
      rw [resultingAccounts_length, hlen2, show PROGRAM_ACCOUNTS_LEN = 1 from rfl]
      omega
    refine ⟨hL, fun i hi => ?_⟩
    rw [hL] at hi
    rw [resultingAccounts_getElem?,
      List.getElem?_eq_getElem (show PROGRAM_ACCOUNTS_LEN + i <
        (vm (mkVMInput m instruction accounts)).transaction_accounts.length by
          rw [hlen2, show PROGRAM_ACCOUNTS_LEN = 1 from rfl]
          omega),
      List.getElem?_eq_getElem (show i < instruction.accounts.length by omega)]
    rfl

/-- C9 (witness): the theorem applied to the fixture call. -/
theorem c9_witness :
    fixResult.resulting_accounts.length =
      min fixAccounts.length fixInstr.accounts.length ∧
    (fixResult.resulting_accounts[0]?).map Prod.fst =
      (fixInstr.accounts[0]?).map AccountMeta.pubkey :=
  ⟨(c9_theorem idVm fixMollusk fixInstr fixAccounts fixResult fixCacheAfter
      idVm_preservesLen (by decide)).1,
    (c9_theorem idVm fixMollusk fixInstr fixAccounts fixResult fixCacheAfter
      idVm_preservesLen (by decide)).2 0 (by decide)⟩

/-- C3 (amended): when `add_program` fails bytecode verification, the
cache's entry map is untouched — the entry for any identity is exactly as
before the call — but the failure is a panic raised while the cache's write
lock guard is held, which poisons the lock; every subsequent `process` call
on the same harness then panics at lock acquisition instead of resolving
the identity. -/
theorem c3_theorem (verify : ElfVerify) (st : ProgramCache) (pid loader : Pubkey)
    (elf : List Nat) (hfail : verify elf = none) (hnp : st.poisoned = false) :
    (ProgramCache.add_program verify st pid loader elf).1.entries = st.entries ∧
    (ProgramCache.add_program verify st pid loader elf).2 = true ∧
    (ProgramCache.add_program verify st pid loader elf).1.poisoned = true ∧
    ∀ (vm : VM) (m : Mollusk) (instruction : Instruction)
      (accounts : List (Pubkey × Account)),
      m.program_cache = (ProgramCache.add_program verify st pid loader elf).1 →
      Mollusk.process_instruction vm m instruction accounts = none := by
  have hadd : ProgramCache.add_program verify st pid loader elf =
      ({ st with poisoned := true }, true) := by
    simp [ProgramCache.add_program, hnp, hfail]
  refine ⟨by rw [hadd], by rw [hadd], by rw [hadd], ?_⟩
  intro vm m instruction accounts hm
  apply process_instruction_poisoned
  rw [hm, hadd]

/-- C3 (counterexample): a failed `add` against identity X on a cache that
already held an entry for X leaves the entry map unchanged, but the next
`process` call on that harness panics (returns `none`) because the poisoned
lock's `write().unwrap()` fails — it does not resolve X to the prior
entry. -/
theorem c3_counterexample :
    ((ProgramCache.add_program failVerify cexCacheX cexX
        bpf_loader_upgradeable_id [9]).1.entries = cexCacheX.entries) ∧
    ((ProgramCache.add_program failVerify cexCacheX cexX
        bpf_loader_upgradeable_id [9]).1.poisoned = true) ∧
    Mollusk.process_instruction idVm
      { fixMollusk with
          program_cache := (ProgramCache.add_program failVerify cexCacheX cexX
            bpf_loader_upgradeable_id [9]).1,
          program_id := cexX }
      { fixInstr with program_id := cexX } fixAccounts = none := by
  decide

/-- C3 (witness): the amended theorem applied to the concrete failed add. -/
theorem c3_witness :
    (ProgramCache.add_program failVerify cexCacheX cexX
        bpf_loader_upgradeable_id [9]).1.entries = cexCacheX.entries ∧
    (ProgramCache.add_program failVerify cexCacheX cexX
        bpf_loader_upgradeable_id [9]).2 = true ∧
    Mollusk.process_instruction idVm
      { fixMollusk with
          program_cache := (ProgramCache.add_program failVerify cexCacheX cexX
            bpf_loader_upgradeable_id [9]).1 }
      fixInstr fixAccounts = none :=
  ⟨(c3_theorem failVerify cexCacheX cexX bpf_loader_upgradeable_id [9] rfl rfl).1,
    (c3_theorem failVerify cexCacheX cexX bpf_loader_upgradeable_id [9] rfl rfl).2.1,
    (c3_theorem failVerify cexCacheX cexX bpf_loader_upgradeable_id [9] rfl rfl).2.2.2
      idVm _ fixInstr fixAccounts rfl⟩

/-- C6 (confirmed): the caller-owned account list, threaded as state through
the call, is returned unchanged for every VM and every input: the source
borrows the slice immutably and clones it into the transaction table, so
all VM mutation lands on the copies and the pipeline result on those copies
agrees with `process_instruction`. -/
theorem c6_theorem (vm : VM) (m : Mollusk) (instruction : Instruction)
    (store : List (Pubkey × Account)) :
    (Mollusk.process_instruction_tracked vm m instruction store).2 = store ∧
    (Mollusk.process_instruction_tracked vm m instruction store).1 =
      Mollusk.process_instruction vm m instruction store :=
  ⟨rfl, rfl⟩

/-- C7 (confirmed): adding bytecode for the same identity twice (both
verifying successfully) is last-write-wins — the existing entry is
unconditionally replaced and lookup resolves the second image only. -/
theorem c7_theorem (verify : ElfVerify) (st : ProgramCache) (pid : Pubkey)
    (loader1 loader2 : Pubkey) (elf1 elf2 img1 img2 : List Nat)
    (hnp : st.poisoned = false) (_hne : elf1 ≠ elf2)
    (h1 : verify elf1 = some img1) (h2 : verify elf2 = some img2) :
    lookupEntry
      ((ProgramCache.add_program verify
          (ProgramCache.add_program verify st pid loader1 elf1).1
          pid loader2 elf2).1).entries pid =
      some (CacheEntry.bytecode loader2 img2) := by
  simp [ProgramCache.add_program, hnp, h1, h2, lookupEntry_replenish_self]

/-- C7 (witness): two concrete adds for the same identity; lookup resolves
the second image. -/
theorem c7_witness :
    lookupEntry
      ((ProgramCache.add_program okVerify
          (ProgramCache.add_program okVerify fixCache cexX bpf_loader_id [1]).1
          cexX bpf_loader_upgradeable_id [2]).1).entries cexX =
      some (CacheEntry.bytecode bpf_loader_upgradeable_id [2]) :=
  c7_theorem okVerify fixCache cexX bpf_loader_id bpf_loader_upgradeable_id
    [1] [2] [1] [2] rfl (by decide) rfl rfl

/-- C8 (confirmed): two `process` calls with identical inputs and no
intervening cache or configuration mutation (the second call starts from
the cache state the first call returned, which may differ only in metrics)
yield identical `program_result` and identical `resulting_accounts`. -/
theorem c8_theorem (vm : VM) (m : Mollusk) (instruction : Instruction)
    (accounts : List (Pubkey × Account)) (r1 r2 : InstructionResult)
    (st1 st2 : ProgramCache)
    (h1 : Mollusk.process_instruction vm m instruction accounts = some (r1, st1))
    (h2 : Mollusk.process_instruction vm { m with program_cache := st1 }
        instruction accounts = some (r2, st2)) :
    r1.program_result = r2.program_result ∧
    r1.resulting_accounts = r2.resulting_accounts := by
  cases hpois : m.program_cache.poisoned with
  | true =>
    rw [process_instruction_poisoned vm m instruction accounts hpois] at h1
    cases h1
  | false =>
    rw [process_instruction_eq_some vm m instruction accounts hpois] at h1
    simp only [Option.some.injEq, Prod.mk.injEq] at h1
    obtain ⟨hr1, hst1⟩ := h1
    have hst1pois : st1.poisoned = false := by
      rw [← hst1]
      exact hpois
    have hpois2 :
        ({ m with program_cache := st1 } : Mollusk).program_cache.poisoned = false :=
      hst1pois
    have hmk : mkVMInput { m with program_cache := st1 } instruction accounts =
        mkVMInput m instruction accounts := by
      rw [← hst1]
      rfl
    rw [process_instruction_eq_some _ _ _ _ hpois2, hmk] at h2
    simp only [Option.some.injEq, Prod.mk.injEq] at h2
    obtain ⟨hr2, hst2⟩ := h2
    rw [← hr1, ← hr2]
    exact ⟨rfl, rfl⟩

/-- C8 (witness): the fixture call made twice; both runs agree on
`program_result` and `resulting_accounts`. -/
theorem c8_witness :
    fixResult.program_result = fixResult.program_result ∧
    fixResult.resulting_accounts = fixResult.resulting_accounts :=
  c8_theorem idVm fixMollusk fixInstr fixAccounts fixResult fixResult
    fixCacheAfter fixCacheAfter (by decide) (by decide)

end MolluskSpec
